import Mathlib

/-!
Shallow embedding of the `oof` request builder (src/src/oof.ts) of the
simpler-fetch repository.

JavaScript objects (header mappings, parsed JSON bodies) are modelled as
insertion-ordered association lists with spread semantics: spreading an
entry over an object either overwrites the value at the first occurrence
of its key (keeping the key's position) or appends the entry at the end,
exactly as JS object spread does.  Promises and thrown errors are both
modelled with `Except Err`, so a rejected promise and a synchronous throw
alike surface as `Except.error`.  The process-wide mutable static
`oof._baseUrl` is passed to `run` as an explicit argument holding the value
the static field has at resolution time; its initial value is the constant
`oof._baseUrlInit`.  The external transport `_fetch` is a parameter of
`run`, applied to the (url, options, data) triple the source passes it.
-/

/-- Error payloads carried by thrown errors / rejected promises. -/
abbrev Err := String

/-- A small universe of JS values appearing in header mappings, JSON bodies
and data payloads. -/
inductive JVal where
  | jNull : JVal
  | jBool (b : Bool) : JVal
  | jNum (n : Int) : JVal
  | jStr (s : String) : JVal
deriving DecidableEq, Repr

/-- A JS object: insertion-ordered association list of key/value pairs. -/
abbrev JsObj := List (String × JVal)

/-- The HTTP method union type of oof.ts. -/
inductive HTTPMethod where
  | HEAD | OPTIONS | GET | POST | PUT | PATCH | DELETE
deriving DecidableEq, Repr

/-- The string a method renders to when placed in the request options. -/
def methodString : HTTPMethod → String
  | .HEAD => "HEAD"
  | .OPTIONS => "OPTIONS"
  | .GET => "GET"
  | .POST => "POST"
  | .PUT => "PUT"
  | .PATCH => "PATCH"
  | .DELETE => "DELETE"

/-- A header source: a plain object, a synchronous zero-argument function
(which may throw), or an asynchronous zero-argument function (whose promise
may reject).  `typeof header === "function"` is true for the last two. -/
inductive Header where
  | obj (o : JsObj) : Header
  | fn (f : Unit → Except Err JsObj) : Header
  | asyncFn (f : Unit → Except Err JsObj) : Header

/-- The slice of a RequestInit record that interacts with `run`'s spread:
an optional `method` key, an optional `headers` key, and any other
entries (modelled opaquely). -/
structure RequestInit where
  methodK : Option String
  headersK : Option JsObj
  extra : List (String × JVal)

/-- The empty RequestInit, default value of the constructor's `opts`. -/
def RequestInit.empty : RequestInit :=
  { methodK := none, headersK := none, extra := [] }

/-- The builder instance: private fields of class `oof`.  The TS private
field `#data` is called `dataF` here because `data` is used for the
chainable setter, as in the source. -/
structure oof where
  method : HTTPMethod
  path : String
  opts : RequestInit
  headers : List Header
  dataF : Option JVal

/-- The constructor's `headers` argument: a single header source or an
array of them. -/
inductive HeadersArg where
  | one (h : Header)
  | arr (hs : List Header)

/-- `Array.isArray(headers) ? headers : [headers]` — normalize to a list. -/
def normalizeHeaders : HeadersArg → List Header
  | .one h => [h]
  | .arr hs => hs

/-- The low-level constructor `new oof({method, path, opts, headers})`. -/
def oof.new (method : HTTPMethod) (path : String) (opts : RequestInit)
    (headers : HeadersArg) : oof :=
  { method := method, path := path, opts := opts,
    headers := normalizeHeaders headers, dataF := none }

/-- The default header object injected by `_METHODS_WITH_DATA`. -/
def contentTypeJson : JsObj := [("Content-Type", JVal.jStr "application/json")]

/-- `oof._METHODS_WO_DATA`: `new oof({ method, path })`. -/
def oof._METHODS_WO_DATA (method : HTTPMethod) (path : String) : oof :=
  oof.new method path RequestInit.empty (HeadersArg.arr [])

/-- `oof._METHODS_WITH_DATA`: constructor injecting the JSON content type. -/
def oof._METHODS_WITH_DATA (method : HTTPMethod) (path : String) : oof :=
  oof.new method path RequestInit.empty
    (HeadersArg.one (Header.obj contentTypeJson))

/-- `oof.GET`. -/
def oof.GET (path : String) : oof :=
  oof.new HTTPMethod.GET path RequestInit.empty (HeadersArg.arr [])

/-- `oof.POST`. -/
def oof.POST (path : String) : oof := oof._METHODS_WITH_DATA HTTPMethod.POST path

/-- `oof.PUT`. -/
def oof.PUT (path : String) : oof := oof._METHODS_WITH_DATA HTTPMethod.PUT path

/-- `oof.DEL`: `new oof({ method: "DELETE", path })`. -/
def oof.DEL (path : String) : oof :=
  oof.new HTTPMethod.DELETE path RequestInit.empty (HeadersArg.arr [])

/-- The chainable `options` setter: full replacement of the opts record. -/
def oof.options (b : oof) (opts : RequestInit) : oof := { b with opts := opts }

/-- The chainable `header` setter: pushes one source onto the list. -/
def oof.header (b : oof) (h : Header) : oof :=
  { b with headers := b.headers ++ [h] }

/-- The chainable `data` setter: direct assignment of the payload. -/
def oof.data (b : oof) (d : JVal) : oof := { b with dataF := some d }

/-- The initial value of the static field `oof._baseUrl`. -/
def oof._baseUrlInit : String := ""

/-- Case-fold a string to a character list (ASCII lowering, as the regex
`i` flag performs on the ASCII patterns involved). -/
def lowerChars (s : String) : List Char := s.data.map Char.toLower

/-- Bool check that `hay` starts with `pat`. -/
def leadsWith : List Char → List Char → Bool
  | [], _ => true
  | _ :: _, [] => false
  | p :: ps, c :: cs => (p == c) && leadsWith ps cs

/-- Bool check that `pat` occurs as a contiguous run anywhere in `hay`. -/
def containsSub (pat : List Char) : List Char → Bool
  | [] => pat.isEmpty
  | c :: t => leadsWith pat (c :: t) || containsSub pat t

/-- `this.#path.match(/https:\/\/|http:\/\//i)` is truthy: the path holds
an `https://` or `http://` run anywhere, case-insensitively. -/
def hasScheme (path : String) : Bool :=
  containsSub "https://".data (lowerChars path) ||
    containsSub "http://".data (lowerChars path)

/-- The URL the `run` method hands to `_fetch`, given the value the static
base URL holds at resolution time. -/
def resolveUrl (baseUrl path : String) : String :=
  if hasScheme path = true then path else baseUrl ++ path

/-- Spec-side predicate: the (already lowercase) pattern string occurs
inside the case-folded subject string. -/
def ContainsCI (pat s : String) : Prop :=
  ∃ pre post, lowerChars s = pre ++ (pat.data ++ post)

/-- Resolve one header source: a plain object stands as is, a callable is
invoked with no arguments (and its promise awaited). -/
def resolveHeader : Header → Except Err JsObj
  | .obj o => Except.ok o
  | .fn f => f ()
  | .asyncFn f => f ()

/-- `await Promise.all(this.#headers.map(...))`: resolve every source,
failing with the first failure in insertion order. -/
def resolveHeaders : List Header → Except Err (List JsObj)
  | [] => Except.ok []
  | h :: t =>
    match resolveHeader h with
    | Except.error e => Except.error e
    | Except.ok o =>
      match resolveHeaders t with
      | Except.error e => Except.error e
      | Except.ok os => Except.ok (o :: os)

/-- Set one key of a JS object: overwrite the value at the first occurrence
of the key (keeping its position), or append the entry at the end. -/
def setKey : JsObj → String → JVal → JsObj
  | [], k, v => [(k, v)]
  | (k₀, v₀) :: t, k, v =>
    if k₀ = k then (k, v) :: t else (k₀, v₀) :: setKey t k v

/-- JS object spread: the entries of the second object are set over the
first one, in order. -/
def spread (a : JsObj) : JsObj → JsObj
  | [] => a
  | (k, v) :: t => spread (setKey a k v) t

/-- `.reduce((obj, item) => ... , \x7b\x7d)`: left fold of spread over the
resolved header objects, starting from the empty object. -/
def mergeObjs (objs : List JsObj) : JsObj := List.foldl spread [] objs

/-- The request-options record after `{ method, headers: merged, ...opts }`:
a `method` or `headers` key inside `opts` overrides the computed one. -/
structure FinalOpts where
  method : String
  headers : JsObj
  extra : List (String × JVal)

/-- The argument triple `run` passes to the transport `_fetch`. -/
structure FetchCall where
  url : String
  opts : FinalOpts
  data : Option JVal

/-- Assemble the transport call from the builder, the base URL read at
resolution time, and the merged header object. -/
def mkCall (baseUrl : String) (b : oof) (merged : JsObj) : FetchCall :=
  { url := resolveUrl baseUrl b.path,
    opts := { method := Option.getD b.opts.methodK (methodString b.method),
              headers := Option.getD b.opts.headersK merged,
              extra := b.opts.extra },
    data := b.dataF }

/-- The terminal `run` call, generic in the transport's result: resolve the
header sources, then return the result of applying the transport once to
the assembled triple.  A header-resolution failure propagates and the
transport is never reached. -/
def oof.run {ρ : Type} (fetch : FetchCall → ρ) (baseUrl : String)
    (b : oof) : Except Err ρ :=
  match resolveHeaders b.headers with
  | Except.error e => Except.error e
  | Except.ok objs => Except.ok (fetch (mkCall baseUrl b (mergeObjs objs)))

/-- The transport's view of a response: the fields the builder reads. -/
structure Response where
  ok : Bool
  status : Int
  json : Except Err JsObj

/-- `run` with a fallible transport, awaited: a transport rejection
propagates to the caller unmodified. -/
def oof.runP (fetch : FetchCall → Except Err Response) (baseUrl : String)
    (b : oof) : Except Err Response :=
  match oof.run fetch baseUrl b with
  | Except.error e => Except.error e
  | Except.ok r => r

/-- `runJSON`: run, parse the body, and build
`{ ok: response.ok, status: response.status, ...parsedJSON }`. -/
def oof.runJSON (fetch : FetchCall → Except Err Response) (baseUrl : String)
    (b : oof) : Except Err JsObj :=
  match oof.runP fetch baseUrl b with
  | Except.error e => Except.error e
  | Except.ok resp =>
    match resp.json with
    | Except.error e => Except.error e
    | Except.ok parsed =>
      Except.ok (spread [("ok", JVal.jBool resp.ok),
                         ("status", JVal.jNum resp.status)] parsed)

/-- JS property lookup on the association-list model. -/
def lookupObj : JsObj → String → Option JVal
  | [], _ => none
  | (k₀, v₀) :: t, k => if k₀ = k then some v₀ else lookupObj t k

/-- The value attached to the last entry carrying a given key, if any. -/
def lastEntry : JsObj → String → Option JVal
  | [], _ => none
  | (k₀, v₀) :: t, k =>
    match lastEntry t k with
    | some w => some w
    | none => if k₀ = k then some v₀ else none

/-- Spec-side merged lookup: the value from the last source that defines
the key — later sources override earlier ones. -/
def specLookup (vs : List JsObj) (k : String) : Option JVal :=
  List.foldl
    (fun acc o => match lastEntry o k with | some v => some v | none => acc)
    none vs

/-- Concrete builder for the C2 witness: a default source, a sync function
source, then a plain object overriding the default content type. -/
def bC2 : oof :=
  ((oof.POST "/t").header (Header.fn (fun _ => Except.ok [("A", JVal.jNum 1)]))).header
    (Header.obj [("Content-Type", JVal.jStr "text/plain")])

/-- Concrete builder for the C3 witness: a header source is accumulated and
then an options record carrying its own headers key is set. -/
def bC3 : oof :=
  ((oof.GET "/t").header (Header.obj [("A", JVal.jNum 1)])).options
    { methodK := none, headersK := some [("X", JVal.jStr "1")], extra := [] }

/-- Concrete response for the C4 witness: status 404 and a body whose ok
entry is the string custom. -/
def respC4 : Response :=
  { ok := false, status := 404, json := Except.ok [("ok", JVal.jStr "custom")] }

/-- Concrete response for the C8 witness: a successful transport response,
never reached because a header source throws first. -/
def respC8 : Response :=
  { ok := true, status := 200, json := Except.ok [] }

/-! ## Basic lemmas about the embedding -/

theorem leadsWith_iff (p : List Char) : ∀ h : List Char,
    leadsWith p h = true ↔ ∃ s, h = p ++ s := by
  induction p with
  | nil =>
    intro h
    constructor
    · intro _; exact ⟨h, rfl⟩
    · intro _; rfl
  | cons a ps ih =>
    intro h
    cases h with
    | nil =>
      constructor
      · intro hh; exact Bool.noConfusion hh
      · rintro ⟨s, hs⟩; exact List.noConfusion hs
    | cons c cs =>
      have hstep : leadsWith (a :: ps) (c :: cs) = ((a == c) && leadsWith ps cs) := rfl
      rw [hstep, Bool.and_eq_true, beq_iff_eq, ih cs]
      constructor
      · rintro ⟨rfl, s, rfl⟩
        exact ⟨s, rfl⟩
      · rintro ⟨s, hs⟩
        rw [List.cons_append] at hs
        injection hs with h1 h2
        exact ⟨h1.symm, s, h2⟩

theorem containsSub_iff (p : List Char) : ∀ h : List Char,
    containsSub p h = true ↔ ∃ pre post, h = pre ++ (p ++ post) := by
  intro h
  induction h with
  | nil =>
    constructor
    · intro hh
      have hp : p = [] := by
        cases p with
        | nil => rfl
        | cons a ps => exact Bool.noConfusion hh
      subst hp
      exact ⟨[], [], rfl⟩
    · rintro ⟨pre, post, hm⟩
      obtain ⟨h1, h2⟩ := List.append_eq_nil.mp hm.symm
      obtain ⟨h3, h4⟩ := List.append_eq_nil.mp h2
      subst h3
      rfl
  | cons c t ih =>
    have hstep : containsSub p (c :: t) = (leadsWith p (c :: t) || containsSub p t) := rfl
    rw [hstep, Bool.or_eq_true, leadsWith_iff, ih]
    constructor
    · rintro (⟨s, hs⟩ | ⟨pre, post, hp⟩)
      · exact ⟨[], s, by simpa using hs⟩
      · exact ⟨c :: pre, post, by simp [hp]⟩
    · rintro ⟨pre, post, hp⟩
      cases pre with
      | nil =>
        exact Or.inl ⟨post, by simpa using hp⟩
      | cons c₀ pre' =>
        rw [List.cons_append] at hp
        injection hp with h1 h2
        exact Or.inr ⟨pre', post, h2⟩

instance (pat s : String) : Decidable (ContainsCI pat s) :=
  decidable_of_iff (containsSub pat.data (lowerChars s) = true)
    (containsSub_iff pat.data (lowerChars s))

theorem hasScheme_iff (path : String) :
    hasScheme path = true ↔
      (ContainsCI "https://" path ∨ ContainsCI "http://" path) := by
  have hstep : hasScheme path =
      (containsSub "https://".data (lowerChars path) ||
        containsSub "http://".data (lowerChars path)) := rfl
  rw [hstep, Bool.or_eq_true, containsSub_iff, containsSub_iff]
  exact Iff.rfl

theorem resolveUrl_pos (baseUrl path : String) (h : hasScheme path = true) :
    resolveUrl baseUrl path = path := by
  simp [resolveUrl, h]

theorem resolveUrl_neg (baseUrl path : String) (h : hasScheme path = false) :
    resolveUrl baseUrl path = baseUrl ++ path := by
  simp [resolveUrl, h]

theorem lookup_setKey_same (a : JsObj) (k : String) (v : JVal) :
    lookupObj (setKey a k v) k = some v := by
  induction a with
  | nil => simp [setKey, lookupObj]
  | cons kv t ih =>
    obtain ⟨k₀, v₀⟩ := kv
    by_cases h : k₀ = k
    · subst h; simp [setKey, lookupObj]
    · simp [setKey, lookupObj, h, ih]

theorem lookup_setKey_diff (a : JsObj) (k k' : String) (v : JVal) (hne : k ≠ k') :
    lookupObj (setKey a k v) k' = lookupObj a k' := by
  induction a with
  | nil => simp [setKey, lookupObj, hne]
  | cons kv t ih =>
    obtain ⟨k₀, v₀⟩ := kv
    by_cases h : k₀ = k
    · subst h
      simp [setKey, lookupObj, hne]
    · by_cases h' : k₀ = k'
      · subst h'; simp [setKey, lookupObj, h]
      · simp [setKey, lookupObj, h, h', ih]

theorem lookup_spread (b : JsObj) : ∀ (a : JsObj) (k : String),
    lookupObj (spread a b) k =
      match lastEntry b k with
      | some w => some w
      | none => lookupObj a k := by
  induction b with
  | nil => intro a k; rfl
  | cons kv t ih =>
    intro a k
    obtain ⟨k₀, v₀⟩ := kv
    have hstep : spread a ((k₀, v₀) :: t) = spread (setKey a k₀ v₀) t := rfl
    rw [hstep, ih]
    cases hl : lastEntry t k with
    | some w => simp [lastEntry, hl]
    | none =>
      by_cases h : k₀ = k
      · subst h
        simp [lastEntry, hl, lookup_setKey_same]
      · simp [lastEntry, hl, h, lookup_setKey_diff a k₀ k v₀ h]

theorem lookup_foldl_spread (vs : List JsObj) : ∀ (a : JsObj) (k : String),
    lookupObj (List.foldl spread a vs) k =
      List.foldl
        (fun acc o => match lastEntry o k with | some v => some v | none => acc)
        (lookupObj a k) vs := by
  induction vs with
  | nil => intro a k; rfl
  | cons o t ih =>
    intro a k
    rw [List.foldl_cons, List.foldl_cons, ih, lookup_spread]

theorem lookup_mergeObjs (vs : List JsObj) (k : String) :
    lookupObj (mergeObjs vs) k = specLookup vs k := by
  have hstep : mergeObjs vs = List.foldl spread [] vs := rfl
  rw [hstep, lookup_foldl_spread]
  rfl

theorem specLookup_aux_isSome (k : String) (vs : List JsObj) :
    ∀ acc : Option JVal, acc.isSome = true →
      (List.foldl
        (fun acc o => match lastEntry o k with | some v => some v | none => acc)
        acc vs).isSome = true := by
  induction vs with
  | nil => intro acc h; exact h
  | cons o t ih =>
    intro acc h
    rw [List.foldl_cons]
    apply ih
    cases hl : lastEntry o k with
    | some v => simp [hl]
    | none => simpa [hl] using h

theorem str_data_append (a b : String) : (a ++ b).data = a.data ++ b.data := by
  cases a; cases b; rfl

theorem str_empty_append (s : String) : "" ++ s = s := by
  cases s; rfl

theorem str_append_right_ne (u₁ u₂ p : String) (h : u₁ ≠ u₂) :
    u₁ ++ p ≠ u₂ ++ p := by
  intro heq
  apply h
  have hd : u₁.data ++ p.data = u₂.data ++ p.data := by
    rw [← str_data_append, ← str_data_append, heq]
  have hcanc := List.append_cancel_right hd
  cases u₁
  cases u₂
  exact congrArg String.mk hcanc

theorem run_eq_ok {ρ : Type} (fetch : FetchCall → ρ) (baseUrl : String) (b : oof)
    (vs : List JsObj) (hres : resolveHeaders b.headers = Except.ok vs) :
    oof.run fetch baseUrl b = Except.ok (fetch (mkCall baseUrl b (mergeObjs vs))) := by
  unfold oof.run
  rw [hres]

theorem run_eq_error {ρ : Type} (fetch : FetchCall → ρ) (baseUrl : String) (b : oof)
    (e : Err) (hres : resolveHeaders b.headers = Except.error e) :
    oof.run fetch baseUrl b = Except.error e := by
  unfold oof.run
  rw [hres]

theorem runP_eq_ok (fetch : FetchCall → Except Err Response) (baseUrl : String)
    (b : oof) (vs : List JsObj) (hres : resolveHeaders b.headers = Except.ok vs) :
    oof.runP fetch baseUrl b = fetch (mkCall baseUrl b (mergeObjs vs)) := by
  unfold oof.runP
  rw [run_eq_ok fetch baseUrl b vs hres]

theorem runP_eq_error (fetch : FetchCall → Except Err Response) (baseUrl : String)
    (b : oof) (e : Err) (hres : resolveHeaders b.headers = Except.error e) :
    oof.runP fetch baseUrl b = Except.error e := by
  unfold oof.runP
  rw [run_eq_error fetch baseUrl b e hres]

theorem runJSON_eq (fetch : FetchCall → Except Err Response) (baseUrl : String)
    (b : oof) (resp : Response) (hrun : oof.runP fetch baseUrl b = Except.ok resp) :
    oof.runJSON fetch baseUrl b =
      (match resp.json with
       | Except.error e => Except.error e
       | Except.ok parsed =>
         Except.ok (spread [("ok", JVal.jBool resp.ok),
                            ("status", JVal.jNum resp.status)] parsed)) := by
  unfold oof.runJSON
  rw [hrun]

/-! ## Claim theorems -/

/-- C1: the terminal run call resolves the target URL as follows: if the
builder's path holds an http or https scheme marker anywhere in the string,
case-insensitively, the resolved URL is the path verbatim regardless of the
process-wide base URL; otherwise it is the plain concatenation of the base
URL and the path, with no separator normalization. -/
theorem run_url_resolution (baseUrl : String) (b : oof) (vs : List JsObj)
    (hres : resolveHeaders b.headers = Except.ok vs) :
    ((ContainsCI "https://" b.path ∨ ContainsCI "http://" b.path) →
      oof.run (fun c => c.url) baseUrl b = Except.ok b.path) ∧
    (¬(ContainsCI "https://" b.path ∨ ContainsCI "http://" b.path) →
      oof.run (fun c => c.url) baseUrl b = Except.ok (baseUrl ++ b.path)) := by
  have hrun := run_eq_ok (fun c => c.url) baseUrl b vs hres
  constructor
  · intro h
    rw [hrun]
    show Except.ok (resolveUrl baseUrl b.path) = _
    rw [resolveUrl_pos baseUrl b.path ((hasScheme_iff b.path).mpr h)]
  · intro h
    have hs : hasScheme b.path = false := by
      cases hh : hasScheme b.path
      · rfl
      · exact absurd ((hasScheme_iff b.path).mp hh) h
    rw [hrun]
    show Except.ok (resolveUrl baseUrl b.path) = _
    rw [resolveUrl_neg baseUrl b.path hs]

/-- Witness for C1: a scheme-less path is concatenated onto the base. -/
theorem run_url_resolution_witness :
    oof.run (fun c => c.url) "http://base" (oof.GET "/test")
      = Except.ok ("http://base" ++ "/test") :=
  (run_url_resolution "http://base" (oof.GET "/test") [] rfl).2 (by decide)

/-- C2: with no headers key inside the options record, the headers handed
to the transport equal the left fold of JS object spread, from the empty
object, over the sources' resolved values in insertion order; per key the
last source defining it wins; `header` appends sources in call order. -/
theorem run_header_fold (baseUrl : String) (b : oof) (vs : List JsObj)
    (hres : resolveHeaders b.headers = Except.ok vs)
    (hnoov : b.opts.headersK = none) :
    oof.run (fun c => c.opts.headers) baseUrl b = Except.ok (mergeObjs vs) ∧
    (∀ k, lookupObj (mergeObjs vs) k = specLookup vs k) ∧
    (∀ (b' : oof) (h : Header), (oof.header b' h).headers = b'.headers ++ [h]) := by
  refine ⟨?_, fun k => lookup_mergeObjs vs k, fun b' h => rfl⟩
  rw [run_eq_ok (fun c => c.opts.headers) baseUrl b vs hres]
  show Except.ok (Option.getD b.opts.headersK (mergeObjs vs)) = _
  rw [hnoov]
  rfl

/-- Witness for C2: merged headers of a three-source builder. -/
theorem run_header_fold_witness :
    oof.run (fun c => c.opts.headers) "" bC2
      = Except.ok [("Content-Type", JVal.jStr "text/plain"), ("A", JVal.jNum 1)] := by
  have h := (run_header_fold "" bC2
    [contentTypeJson, [("A", JVal.jNum 1)], [("Content-Type", JVal.jStr "text/plain")]]
    rfl rfl).1
  exact h.trans (by rfl)

/-- C3: run assembles the transport options with the caller options record
spread last, so its method and headers keys override the computed ones; in
particular a headers key inside the options record replaces the whole
merged header mapping. -/
theorem run_options_overlay (baseUrl : String) (b : oof) (vs : List JsObj)
    (hres : resolveHeaders b.headers = Except.ok vs) :
    oof.run (fun c => c) baseUrl b = Except.ok
      { url := resolveUrl baseUrl b.path,
        opts := { method := Option.getD b.opts.methodK (methodString b.method),
                  headers := Option.getD b.opts.headersK (mergeObjs vs),
                  extra := b.opts.extra },
        data := b.dataF } ∧
    (∀ hdr, b.opts.headersK = some hdr →
      oof.run (fun c => c.opts.headers) baseUrl b = Except.ok hdr) := by
  constructor
  · rw [run_eq_ok (fun c => c) baseUrl b vs hres]
    rfl
  · intro hdr hk
    rw [run_eq_ok (fun c => c.opts.headers) baseUrl b vs hres]
    show Except.ok (Option.getD b.opts.headersK (mergeObjs vs)) = _
    rw [hk]
    rfl

/-- Witness for C3: the options headers key discards the accumulated
header sources entirely. -/
theorem run_options_overlay_witness :
    oof.run (fun c => c.opts.headers) "" bC3 = Except.ok [("X", JVal.jStr "1")] :=
  (run_options_overlay "" bC3 [[("A", JVal.jNum 1)]] rfl).2 [("X", JVal.jStr "1")] rfl

/-- C4: runJSON parses the body and returns the transport-derived ok and
status entries spread under the parsed body, so a body entry named ok or
status overrides the transport-derived one, and is used verbatim otherwise. -/
theorem runJSON_augment (fetch : FetchCall → Except Err Response) (baseUrl : String)
    (b : oof) (resp : Response) (parsed : JsObj)
    (hrun : oof.runP fetch baseUrl b = Except.ok resp)
    (hjson : resp.json = Except.ok parsed) :
    oof.runJSON fetch baseUrl b = Except.ok
      (spread [("ok", JVal.jBool resp.ok), ("status", JVal.jNum resp.status)] parsed) ∧
    (lastEntry parsed "ok" = none →
      lookupObj (spread [("ok", JVal.jBool resp.ok),
        ("status", JVal.jNum resp.status)] parsed) "ok" = some (JVal.jBool resp.ok)) ∧
    (∀ v, lastEntry parsed "ok" = some v →
      lookupObj (spread [("ok", JVal.jBool resp.ok),
        ("status", JVal.jNum resp.status)] parsed) "ok" = some v) ∧
    (lastEntry parsed "status" = none →
      lookupObj (spread [("ok", JVal.jBool resp.ok),
        ("status", JVal.jNum resp.status)] parsed) "status" = some (JVal.jNum resp.status)) ∧
    (∀ v, lastEntry parsed "status" = some v →
      lookupObj (spread [("ok", JVal.jBool resp.ok),
        ("status", JVal.jNum resp.status)] parsed) "status" = some v) := by
  refine ⟨?_, ?_, ?_, ?_, ?_⟩
  · rw [runJSON_eq fetch baseUrl b resp hrun, hjson]
  · intro h; rw [lookup_spread, h]; rfl
  · intro v h; rw [lookup_spread, h]
  · intro h; rw [lookup_spread, h]; rfl
  · intro v h; rw [lookup_spread, h]

/-- Witness for C4: the body's ok entry overrides the transport-derived
boolean, and the transport-derived status survives. -/
theorem runJSON_augment_witness :
    oof.runJSON (fun _ => Except.ok respC4) "" (oof.GET "/t")
      = Except.ok [("ok", JVal.jStr "custom"), ("status", JVal.jNum 404)] := by
  have h := (runJSON_augment (fun _ => Except.ok respC4) "" (oof.GET "/t") respC4
    [("ok", JVal.jStr "custom")] rfl rfl).1
  exact h.trans (by rfl)

/-- C5: the constructors for methods carrying a JSON entity body inject the
content-type object as the sole, first header source, which later sources
can override per key but never remove; the constructors for bodiless
methods inject no default header source. -/
theorem default_header_by_method (m : HTTPMethod) (p : String) :
    (oof.POST p).headers = [Header.obj contentTypeJson] ∧
    (oof.PUT p).headers = [Header.obj contentTypeJson] ∧
    (oof._METHODS_WITH_DATA m p).headers = [Header.obj contentTypeJson] ∧
    (oof.GET p).headers = [] ∧
    (oof.DEL p).headers = [] ∧
    (oof._METHODS_WO_DATA m p).headers = [] ∧
    (∀ vs : List JsObj,
      (lookupObj (mergeObjs (contentTypeJson :: vs)) "Content-Type").isSome = true) := by
  refine ⟨rfl, rfl, rfl, rfl, rfl, rfl, fun vs => ?_⟩
  rw [lookup_mergeObjs]
  unfold specLookup
  rw [List.foldl_cons]
  exact specLookup_aux_isSome "Content-Type" vs _ rfl

/-- C6: when header resolution succeeds, run applies the transport exactly
once, to the assembled (url, options, data) triple, and hands its result
back untouched: with a transport logging its calls the log is a singleton,
and the awaited run equals one transport application. -/
theorem run_dispatch_once {ρ : Type} (fetch : FetchCall → ρ) (baseUrl : String)
    (b : oof) (vs : List JsObj)
    (hres : resolveHeaders b.headers = Except.ok vs) :
    oof.run fetch baseUrl b = Except.ok (fetch (mkCall baseUrl b (mergeObjs vs))) ∧
    oof.run (fun c => [c]) baseUrl b = Except.ok [mkCall baseUrl b (mergeObjs vs)] ∧
    (∀ fetchE : FetchCall → Except Err Response,
      oof.runP fetchE baseUrl b = fetchE (mkCall baseUrl b (mergeObjs vs))) :=
  ⟨run_eq_ok fetch baseUrl b vs hres,
   run_eq_ok (fun c => [c]) baseUrl b vs hres,
   fun fetchE => runP_eq_ok fetchE baseUrl b vs hres⟩

/-- Witness for C6: the call log of a logging transport is one entry. -/
theorem run_dispatch_once_witness :
    oof.run (fun c => [c.url]) "" (oof.GET "/a") = Except.ok ["/a"] := by
  have h := (run_dispatch_once (fun c => [c.url]) "" (oof.GET "/a") [] rfl).1
  exact h.trans (by rfl)

/-- C7 counterexample: for a GET builder (a method carrying no entity body)
with a data payload set, the payload does appear as the third component of
the transport invocation, so the claim that it is not used in the transport
invocation fails on this input. -/
theorem data_for_bodiless_counterexample :
    oof.run (fun c => c.data) "" ((oof.GET "/test").data (JVal.jStr "payload"))
      = Except.ok (some (JVal.jStr "payload")) ∧
    some (JVal.jStr "payload") ≠ (none : Option JVal) :=
  ⟨rfl, by simp⟩

/-- C7 amended: the most recent data call's value survives, and run always
forwards the stored payload as the transport's third argument, for every
method; making use of it as an entity body is the transport's concern. -/
theorem data_last_write_wins (b : oof) (d₁ d₂ : JVal) (baseUrl : String)
    (vs : List JsObj) (hres : resolveHeaders b.headers = Except.ok vs) :
    ((b.data d₁).data d₂).dataF = some d₂ ∧
    oof.run (fun c => c.data) baseUrl ((b.data d₁).data d₂) = Except.ok (some d₂) := by
  constructor
  · rfl
  · exact run_eq_ok (fun c => c.data) baseUrl ((b.data d₁).data d₂) vs hres

/-- Witness for the amended C7: the second data call's payload is the one
forwarded. -/
theorem data_last_write_wins_witness :
    oof.run (fun c => c.data) "" (((oof.POST "/t").data (JVal.jNum 1)).data (JVal.jNum 2))
      = Except.ok (some (JVal.jNum 2)) :=
  (data_last_write_wins (oof.POST "/t") (JVal.jNum 1) (JVal.jNum 2) "" [contentTypeJson] rfl).2

/-- C8: failures propagate unmodified, with no recovery, retry or partial
result: a throwing or rejecting callable source fails the whole header
resolution with that error; a header-resolution failure makes run and
runJSON fail with that error before the transport is reached; a transport
rejection surfaces unmodified from the awaited run and from runJSON; a
body-parse failure surfaces unmodified from runJSON. -/
theorem run_error_pass_through (fetch : FetchCall → Except Err Response)
    (baseUrl : String) (b : oof) (e : Err) :
    (∀ t, resolveHeaders (Header.fn (fun _ => Except.error e) :: t) = Except.error e ∧
          resolveHeaders (Header.asyncFn (fun _ => Except.error e) :: t) = Except.error e) ∧
    (resolveHeaders b.headers = Except.error e →
      oof.runP fetch baseUrl b = Except.error e ∧
      oof.runJSON fetch baseUrl b = Except.error e) ∧
    (∀ vs, resolveHeaders b.headers = Except.ok vs →
      fetch (mkCall baseUrl b (mergeObjs vs)) = Except.error e →
      oof.runP fetch baseUrl b = Except.error e ∧
      oof.runJSON fetch baseUrl b = Except.error e) ∧
    (∀ resp, oof.runP fetch baseUrl b = Except.ok resp →
      resp.json = Except.error e →
      oof.runJSON fetch baseUrl b = Except.error e) := by
  refine ⟨fun t => ⟨rfl, rfl⟩, ?_, ?_, ?_⟩
  · intro h
    have hp := runP_eq_error fetch baseUrl b e h
    refine ⟨hp, ?_⟩
    unfold oof.runJSON
    rw [hp]
  · intro vs hok hf
    have hp := (runP_eq_ok fetch baseUrl b vs hok).trans hf
    refine ⟨hp, ?_⟩
    unfold oof.runJSON
    rw [hp]
  · intro resp hok hj
    rw [runJSON_eq fetch baseUrl b resp hok, hj]

/-- Witness for C8: a throwing sync header source makes runJSON fail with
the same error payload. -/
theorem run_error_pass_through_witness :
    oof.runJSON (fun _ => Except.ok respC8) ""
      ((oof.GET "/t").header (Header.fn (fun _ => Except.error "boom")))
      = Except.error "boom" :=
  ((run_error_pass_through (fun _ => Except.ok respC8) ""
    ((oof.GET "/t").header (Header.fn (fun _ => Except.error "boom"))) "boom").2.1 rfl).2

/-- C9: the process-wide base URL is read at resolution time: the same
builder value resolved under two different base URLs yields each base
concatenated with the path, and distinct bases yield distinct URLs. -/
theorem baseUrl_read_at_resolution (b : oof) (u₁ u₂ : String) (vs : List JsObj)
    (hsch : hasScheme b.path = false)
    (hres : resolveHeaders b.headers = Except.ok vs) :
    oof.run (fun c => c.url) u₁ b = Except.ok (u₁ ++ b.path) ∧
    oof.run (fun c => c.url) u₂ b = Except.ok (u₂ ++ b.path) ∧
    (u₁ ≠ u₂ → u₁ ++ b.path ≠ u₂ ++ b.path) := by
  refine ⟨?_, ?_, fun hne => str_append_right_ne u₁ u₂ b.path hne⟩
  · rw [run_eq_ok (fun c => c.url) u₁ b vs hres]
    show Except.ok (resolveUrl u₁ b.path) = _
    rw [resolveUrl_neg u₁ b.path hsch]
  · rw [run_eq_ok (fun c => c.url) u₂ b vs hres]
    show Except.ok (resolveUrl u₂ b.path) = _
    rw [resolveUrl_neg u₂ b.path hsch]

/-- Witness for C9: the same builder under two bases, and the two resolved
URLs differ. -/
theorem baseUrl_read_at_resolution_witness :
    oof.run (fun c => c.url) "http://a" (oof.GET "/test")
      = Except.ok ("http://a" ++ "/test") ∧
    ("http://a" : String) ++ "/test" ≠ "http://b" ++ "/test" := by
  have h := baseUrl_read_at_resolution (oof.GET "/test") "http://a" "http://b" [] rfl rfl
  exact ⟨h.1, h.2.2 (by decide)⟩

/-- C10: the process-wide base URL starts as the empty string, so a
scheme-less path resolved before any caller sets the base yields the path
itself. -/
theorem baseUrl_initial_empty (path : String) (b : oof) (vs : List JsObj)
    (hsch : hasScheme path = false) (hp : b.path = path)
    (hres : resolveHeaders b.headers = Except.ok vs) :
    oof._baseUrlInit = "" ∧
    resolveUrl oof._baseUrlInit path = path ∧
    oof.run (fun c => c.url) oof._baseUrlInit b = Except.ok path := by
  refine ⟨rfl, ?_, ?_⟩
  · rw [resolveUrl_neg oof._baseUrlInit path hsch]
    exact str_empty_append path
  · rw [run_eq_ok (fun c => c.url) oof._baseUrlInit b vs hres]
    show Except.ok (resolveUrl oof._baseUrlInit b.path) = _
    rw [hp, resolveUrl_neg oof._baseUrlInit path hsch]
    exact congrArg Except.ok (str_empty_append path)

/-- Witness for C10: an unset base URL leaves the path unchanged. -/
theorem baseUrl_initial_empty_witness :
    oof.run (fun c => c.url) oof._baseUrlInit (oof.GET "/test") = Except.ok "/test" :=
  (baseUrl_initial_empty "/test" (oof.GET "/test") [] rfl rfl rfl).2.2
